import Mathlib

/-!
Verification development for the urbana-chat repository.

The real-time layer (`src/server.js`) keeps three module-level containers:
`activeConnections : Map socketId {userId, socket}`, `chatRooms : Map chatId (Set userId)`,
and socket.io's own per-socket room subscription set.  We embed JavaScript `Map`
and `Set` as association lists / duplicate-free lists preserving insertion order,
and each socket.io event handler as a pure state-transition function that also
returns the list of emitted events together with their recipient socket sets
(`socket.to(room)` excludes the sender, `io.to(room)` does not).

The HTTP routes (`src/app/api/web/chats/route.ts`, three concatenated variants)
and the client-side logic (polling reconciliation in `src/unnamed/part_003`,
typing debounce and websocket send in `src/unnamed/part_001`) are embedded as
pure functions further below.
-/

/-! ### JavaScript `Map` / `Set` embeddings -/

/-- `Map.get`: first entry with the given key (keys are unique in a real `Map`). -/
def getA {α : Type} : List (String × α) → String → Option α
  | [], _ => none
  | (k2, v) :: rest, k => if k = k2 then some v else getA rest k

/-- `Map.set`: update the first entry with the key in place, else append. -/
def updateA {α : Type} : List (String × α) → String → α → List (String × α)
  | [], k, v => [(k, v)]
  | (k2, w) :: rest, k, v => if k = k2 then (k, v) :: rest else (k2, w) :: updateA rest k v

/-- `Map.delete`: drop the first entry with the key. -/
def eraseA {α : Type} : List (String × α) → String → List (String × α)
  | [], _ => []
  | (k2, v) :: rest, k => if k = k2 then rest else (k2, v) :: eraseA rest k

/-- `Set.add`: append if not already present (insertion order preserved). -/
def setInsert (xs : List String) (x : String) : List String :=
  if x ∈ xs then xs else xs ++ [x]

/-- `Set.delete`: drop the first occurrence. -/
def setErase : List String → String → List String
  | [], _ => []
  | y :: rest, x => if x = y then rest else y :: setErase rest x

/-! ### Basic lemmas about the map/set primitives -/

theorem getA_updateA_self {α : Type} (m : List (String × α)) (k : String) (v : α) :
    getA (updateA m k v) k = some v := by
  induction m with
  | nil => simp [updateA, getA]
  | cons p rest ih =>
    obtain ⟨k2, w⟩ := p
    by_cases h : k = k2 <;> simp [updateA, getA, h, ih]

theorem getA_updateA_ne {α : Type} (m : List (String × α)) (k k2 : String) (v : α)
    (h : k2 ≠ k) : getA (updateA m k v) k2 = getA m k2 := by
  induction m with
  | nil => simp [updateA, getA, h]
  | cons p rest ih =>
    obtain ⟨k3, w⟩ := p
    by_cases h2 : k = k3
    · subst h2; simp [updateA, getA, h]
    · by_cases h3 : k2 = k3 <;> simp [updateA, getA, h2, h3, ih]

theorem updateA_self_eq {α : Type} (m : List (String × α)) (k : String) (v : α)
    (h : getA m k = some v) : updateA m k v = m := by
  induction m with
  | nil => simp [getA] at h
  | cons p rest ih =>
    obtain ⟨k2, w⟩ := p
    by_cases h2 : k = k2
    · subst h2
      simp [getA] at h
      simp [updateA, h]
    · simp [getA, h2] at h
      simp [updateA, h2, ih h]

theorem getA_eraseA_ne {α : Type} (m : List (String × α)) (k k2 : String)
    (h : k2 ≠ k) : getA (eraseA m k) k2 = getA m k2 := by
  induction m with
  | nil => simp [eraseA]
  | cons p rest ih =>
    obtain ⟨k3, w⟩ := p
    by_cases h2 : k = k3
    · subst h2; simp [eraseA, getA, h]
    · by_cases h3 : k2 = k3 <;> simp [eraseA, getA, h2, h3, ih]

theorem getA_eq_none_of_not_mem {α : Type} (m : List (String × α)) (k : String)
    (h : k ∉ m.map Prod.fst) : getA m k = none := by
  induction m with
  | nil => rfl
  | cons p rest ih =>
    obtain ⟨k2, w⟩ := p
    simp only [List.map_cons, List.mem_cons] at h
    push_neg at h
    simp [getA, h.1, ih h.2]

theorem getA_eraseA_self {α : Type} (m : List (String × α)) (k : String)
    (hnd : (m.map Prod.fst).Nodup) : getA (eraseA m k) k = none := by
  induction m with
  | nil => simp [eraseA, getA]
  | cons p rest ih =>
    obtain ⟨k2, w⟩ := p
    simp only [List.map_cons, List.nodup_cons] at hnd
    by_cases h2 : k = k2
    · subst h2
      simp only [eraseA, if_pos rfl]
      exact getA_eq_none_of_not_mem rest k hnd.1
    · simp only [eraseA, if_neg h2, getA, if_neg h2]
      exact ih hnd.2

theorem eraseA_not_mem {α : Type} (m : List (String × α)) (k : String)
    (h : k ∉ m.map Prod.fst) : eraseA m k = m := by
  induction m with
  | nil => rfl
  | cons p rest ih =>
    obtain ⟨k2, w⟩ := p
    simp only [List.map_cons, List.mem_cons] at h
    push_neg at h
    simp [eraseA, h.1, ih h.2]

theorem getA_mem {α : Type} (m : List (String × α)) (k : String) (v : α)
    (h : getA m k = some v) : (k, v) ∈ m := by
  induction m with
  | nil => simp [getA] at h
  | cons p rest ih =>
    obtain ⟨k2, w⟩ := p
    by_cases h2 : k = k2
    · subst h2
      simp [getA] at h
      simp [h]
    · simp only [getA, if_neg h2] at h
      exact List.mem_cons_of_mem _ (ih h)

theorem setInsert_of_mem (xs : List String) (x : String) (h : x ∈ xs) :
    setInsert xs x = xs := by
  simp [setInsert, h]

theorem mem_setErase_of_ne (xs : List String) (x y : String) (h : y ≠ x) :
    y ∈ setErase xs x ↔ y ∈ xs := by
  induction xs with
  | nil => simp [setErase]
  | cons z rest ih =>
    by_cases h2 : x = z
    · subst h2
      simp only [setErase, if_pos rfl, List.mem_cons]
      exact ⟨Or.inr, fun hm => hm.resolve_left h⟩
    · simp only [setErase, if_neg h2, List.mem_cons, ih]

theorem not_mem_setErase_self (xs : List String) (x : String) (hnd : xs.Nodup) :
    x ∉ setErase xs x := by
  induction xs with
  | nil => simp [setErase]
  | cons z rest ih =>
    simp only [List.nodup_cons] at hnd
    by_cases h2 : x = z
    · subst h2
      simpa [setErase] using hnd.1
    · simp only [setErase, if_neg h2, List.mem_cons]
      push_neg
      exact ⟨h2, ih hnd.2⟩

theorem setErase_not_mem (xs : List String) (x : String) (h : x ∉ xs) :
    setErase xs x = xs := by
  induction xs with
  | nil => rfl
  | cons z rest ih =>
    simp only [List.mem_cons] at h
    push_neg at h
    simp [setErase, h.1, ih h.2]

theorem setErase_nodup (xs : List String) (x : String) (hnd : xs.Nodup) :
    (setErase xs x).Nodup := by
  induction xs with
  | nil => simp [setErase]
  | cons z rest ih =>
    simp only [List.nodup_cons] at hnd
    by_cases h2 : x = z
    · subst h2; simpa [setErase] using hnd.2
    · simp only [setErase, if_neg h2, List.nodup_cons]
      refine ⟨fun hm => hnd.1 ?_, ih hnd.2⟩
      exact ((mem_setErase_of_ne rest x z (fun hzx => h2 hzx.symm)).mp hm)

/-! ### The websocket server (`src/server.js`) -/

namespace Server

/-- One `emit` performed by a handler: event name, the room it concerns, the
payload's user identifier, the message identifier and content (for
`new-message`, empty otherwise), and the socket ids that receive it. -/
structure Emit where
  event : String
  room : String
  userId : String
  msgId : String
  content : String
  recipients : List String
deriving DecidableEq

/-- The server's mutable module state: `activeConnections` (socket id to user
id, entries only for sockets that supplied a `userId` query parameter),
`chatRooms` (chat id to the `Set` of joined user ids), and socket.io's own
transport-level room subscriptions per socket (the socket's private room,
`socket.id`, is left implicit). -/
structure SrvState where
  activeConnections : List (String × String)
  chatRooms : List (String × List String)
  socketRooms : List (String × List String)
deriving DecidableEq

def srvInit : SrvState := ⟨[], [], []⟩

/-- The tracker's member set for a room (`chatRooms.get(roomId)`), empty if absent. -/
def trackerMembers (st : SrvState) (roomId : String) : List String :=
  (getA st.chatRooms roomId).getD []

/-- The transport-level rooms a socket is subscribed to (minus its private room). -/
def sockRoomsOf (st : SrvState) (sid : String) : List String :=
  (getA st.socketRooms sid).getD []

/-- Sockets currently subscribed to a transport room. -/
def roomSockets (sr : List (String × List String)) (roomId : String) : List String :=
  (sr.filter (fun p => p.2.contains roomId)).map Prod.fst

/-- Recipients of `socket.to(roomId).emit(...)`: room members except the sender. -/
def socketTo (sr : List (String × List String)) (sid roomId : String) : List String :=
  (roomSockets sr roomId).filter (fun s => s != sid)

inductive SrvOp where
  | connect (sid : String) (uid : Option String)
  | joinChat (sid chatId uid : String)
  | leaveChat (sid chatId uid : String)
  | sendMsg (sid chatId uid content msgId : String)
  | typing (sid chatId uid : String) (isTyping : Bool)
  | disconnect (sid : String)
deriving DecidableEq

/-- `io.on('connection')`: register the socket in `activeConnections` when the
handshake carried a `userId`, otherwise admit it without registering. -/
def connectH (st : SrvState) (sid : String) (uid : Option String) : SrvState × List Emit :=
  match uid with
  | some u => (⟨updateA st.activeConnections sid u, st.chatRooms, st.socketRooms⟩, [])
  | none => (st, [])

/-- `socket.on('join-chat')`: `socket.leave` every previous transport room, then
`socket.join(chatId)` (so the transport subscription becomes exactly
`[chatId]`), add `userId` to the tracker set for `chatId` (creating it if
absent), and emit `user-joined` to the other sockets in the room.  Note the
source neither removes `userId` from the previously joined rooms' tracker sets
nor emits any `user-left` for them. -/
def joinChatH (st : SrvState) (sid chatId uid : String) : SrvState × List Emit :=
  let sr := updateA st.socketRooms sid [chatId]
  let cr := updateA st.chatRooms chatId (setInsert (trackerMembers st chatId) uid)
  (⟨st.activeConnections, cr, sr⟩,
   [⟨"user-joined", chatId, uid, "", "", socketTo sr sid chatId⟩])

/-- `socket.leave(chatId)`: drop `chatId` from the socket's transport room set. -/
def leaveSocket (sr : List (String × List String)) (sid chatId : String) :
    List (String × List String) :=
  updateA sr sid (setErase ((getA sr sid).getD []) chatId)

/-- The tracker half of the leave handler: if `chatRooms.has(chatId)`, delete
`userId` from its set and garbage-collect the entry when it becomes empty. -/
def leaveTracker (cr : List (String × List String)) (chatId uid : String) :
    List (String × List String) :=
  match getA cr chatId with
  | some ms =>
    let ms2 := setErase ms uid
    if ms2 = [] then eraseA cr chatId else updateA cr chatId ms2
  | none => cr

/-- `socket.on('leave-chat')`: `socket.leave(chatId)`, remove `userId` from the
tracker set (deleting the room entry if it becomes empty), and emit
`user-left` to the other sockets in the room — unconditionally, even when the
tracker held no such membership. -/
def leaveChatH (st : SrvState) (sid chatId uid : String) : SrvState × List Emit :=
  let sr := leaveSocket st.socketRooms sid chatId
  let cr := leaveTracker st.chatRooms chatId uid
  (⟨st.activeConnections, cr, sr⟩,
   [⟨"user-left", chatId, uid, "", "", socketTo sr sid chatId⟩])

/-- `socket.on('send-message')`: stamp a message and broadcast it with
`io.to(chatId)` — every socket in the room receives it, the sender included. -/
def sendMsgH (st : SrvState) (_sid chatId uid content msgId : String) : SrvState × List Emit :=
  (st, [⟨"new-message", chatId, uid, msgId, content, roomSockets st.socketRooms chatId⟩])

/-- `socket.on('user-typing')` / `socket.on('user-stopped-typing')`: relay to the
other sockets in the room via `socket.to`. -/
def typingH (st : SrvState) (sid chatId uid : String) (isTyping : Bool) : SrvState × List Emit :=
  (st,
   [⟨if isTyping then "user-typing" else "user-stopped-typing",
     chatId, uid, "", "", socketTo st.socketRooms sid chatId⟩])

/-- The `chatRooms.forEach` body of the disconnect handler: remove `uid` from
every room set containing it, dropping entries that become empty. -/
def disconnectRooms (uid : String) : List (String × List String) → List (String × List String)
  | [] => []
  | (r, ms) :: rest =>
    if uid ∈ ms then
      let ms2 := setErase ms uid
      if ms2 = [] then disconnectRooms uid rest else (r, ms2) :: disconnectRooms uid rest
    else (r, ms) :: disconnectRooms uid rest

/-- `socket.on('disconnect')`: socket.io has already removed the socket from its
transport rooms; if the socket was registered, scrub its user id from every
tracker set (emitting `user-left` per affected room) and deregister it;
otherwise nothing happens. -/
def disconnectH (st : SrvState) (sid : String) : SrvState × List Emit :=
  let sr := eraseA st.socketRooms sid
  match getA st.activeConnections sid with
  | none => (⟨st.activeConnections, st.chatRooms, sr⟩, [])
  | some uid =>
    let evs := (st.chatRooms.filter (fun p => p.2.contains uid)).map
      (fun p => (⟨"user-left", p.1, uid, "", "", socketTo sr sid p.1⟩ : Emit))
    (⟨eraseA st.activeConnections sid, disconnectRooms uid st.chatRooms, sr⟩, evs)

def step (st : SrvState) : SrvOp → SrvState × List Emit
  | .connect sid uid => connectH st sid uid
  | .joinChat sid chatId uid => joinChatH st sid chatId uid
  | .leaveChat sid chatId uid => leaveChatH st sid chatId uid
  | .sendMsg sid chatId uid content msgId => sendMsgH st sid chatId uid content msgId
  | .typing sid chatId uid b => typingH st sid chatId uid b
  | .disconnect sid => disconnectH st sid

def runOps : SrvState → List SrvOp → SrvState × List Emit
  | st, [] => (st, [])
  | st, op :: rest =>
    let p := step st op
    let q := runOps p.fst rest
    (q.fst, p.snd ++ q.snd)

/-- Well-formedness mirroring real `Map`/`Set` semantics: unique keys,
duplicate-free member and room lists. -/
def WFS (st : SrvState) : Prop :=
  (st.activeConnections.map Prod.fst).Nodup ∧
  (st.chatRooms.map Prod.fst).Nodup ∧ (∀ p ∈ st.chatRooms, p.2.Nodup) ∧
  (st.socketRooms.map Prod.fst).Nodup ∧ (∀ p ∈ st.socketRooms, p.2.Nodup)

instance (st : SrvState) : Decidable (WFS st) := by
  unfold WFS; infer_instance

end Server

/-! ### The HTTP routes (`src/app/api/web/chats/route.ts`) -/

namespace ChatApi

/-- A chat row in the chats route's in-memory `chats` array. -/
structure Chat where
  id : String
  userId : String
  name : String
  createdAt : String
deriving DecidableEq

/-- The decorated shape the chats-list route returns per chat. -/
structure ChatEntry where
  id : String
  userId : String
  name : String
  createdAt : String
  lastMessage : Option String
  lastMessageTime : String
  unreadCount : Nat
  participants : Nat
  isActive : Bool
deriving DecidableEq

/-- A route response: `ok` carries the success payload, `fail` the HTTP status
and the `error` string of a `success: false` response. -/
inductive ApiResult (α : Type) where
  | ok (val : α)
  | fail (status : Nat) (errMsg : String)
deriving DecidableEq

/-- The spread-plus-constant-fields decoration both chat handlers perform. -/
def decorate (c : Chat) : ChatEntry :=
  ⟨c.id, c.userId, c.name, c.createdAt, none, c.createdAt, 0, 2, true⟩

/-- `GET /api/web/chats`: without an `x-user-id` header the request is rejected
with a 400 error; otherwise the stored chats are filtered to this user and
decorated. -/
def getChats (store : List Chat) (header : Option String) : ApiResult (List ChatEntry) :=
  match header with
  | none => ApiResult.fail 400 "User ID is required"
  | some u => ApiResult.ok ((store.filter (fun c => c.userId == u)).map decorate)

/-- `POST /api/web/chats`: reject without header; otherwise append a chat owned
by the header's user.  `newId` stands for the `Math.random` draw and
`createdAt` for `new Date().toISOString()`. -/
def postChat (store : List Chat) (header : Option String) (newId createdAt : String) :
    ApiResult (List Chat × ChatEntry) :=
  match header with
  | none => ApiResult.fail 400 "User ID is required"
  | some u =>
    let c : Chat := ⟨newId, u, "Chat " ++ toString (store.length + 1), createdAt⟩
    ApiResult.ok (store ++ [c], decorate c)

/-- A message in the JSON messages route's per-chat store. -/
structure JMsg where
  id : String
  content : String
  isFromAgent : Bool
  timestamp : String
deriving DecidableEq

/-- `POST /api/web/chats/[chatId]/messages` (JSON variant): reject when the
header is missing or when `content` is absent or empty (JavaScript
`!content`), before any state mutation; otherwise push the user message and
the immediate canned agent reply.  `uid2`/`aid2` stand for the two `uuidv4()`
draws, `agentText` for `generateAgentResponse(content)` (whose default case
draws from `Math.random`), `ts` for the timestamps. -/
def postMessageJson (store : List (String × List JMsg)) (header : Option String)
    (chatId : String) (content : Option String) (uid2 aid2 agentText ts : String) :
    (List (String × List JMsg)) × ApiResult (List JMsg) :=
  match header with
  | none => (store, ApiResult.fail 400 "User ID is required")
  | some _ =>
    match content with
    | none => (store, ApiResult.fail 400 "Message content is required")
    | some c =>
      if c = "" then (store, ApiResult.fail 400 "Message content is required")
      else
        let cur := (getA store chatId).getD []
        let userMsg : JMsg := ⟨uid2, c, false, ts⟩
        let agentMsg : JMsg := ⟨aid2, agentText, true, ts⟩
        (updateA store chatId (cur ++ [userMsg, agentMsg]), ApiResult.ok [userMsg, agentMsg])

/-- A message row in the multipart-capable messages route's flat store. -/
structure MMsg where
  id : String
  chatId : String
  content : String
  isFromAgent : Bool
  timestamp : String
  status : String
  msgType : String
  fileName : String
  fileUrl : String
  userId : String
deriving DecidableEq

/-- An uploaded file as the route inspects it: its name and whether its MIME
type starts with `image/`. -/
structure FilePart where
  name : String
  isImage : Bool
deriving DecidableEq

/-- `POST .../messages` (multipart-capable variant): rejects only a missing
header or chat id.  The content — defaulted to the empty string on both the
form-data path and the JSON path — is never validated, so an empty-content,
no-file request still appends a message.  `newId` stands for the
`Math.random` draw, `ts` for the timestamps, `uploadPrefix` for the
`/uploads/...-` mock prefix; the delayed AI reply scheduled with `setTimeout`
is a separate later mutation, not part of this request's response. -/
def postMessageMulti (store : List MMsg) (header : Option String)
    (chatId : Option String) (content : String) (file : Option FilePart)
    (newId ts uploadPrefix : String) : (List MMsg) × ApiResult MMsg :=
  match header with
  | none => (store, ApiResult.fail 400 "User ID is required")
  | some u =>
    match chatId with
    | none => (store, ApiResult.fail 400 "Chat ID is required")
    | some cid =>
      let msgType :=
        match file with
        | some f => if f.isImage then "image" else "file"
        | none => "text"
      let fileName := match file with | some f => f.name | none => ""
      let fileUrl := match file with | some f => uploadPrefix ++ f.name | none => ""
      let m : MMsg := ⟨newId, cid, content, false, ts, "sent", msgType, fileName, fileUrl, u⟩
      (store ++ [m], ApiResult.ok m)

end ChatApi

/-! ### The fallback-send reconciliation poll (`src/unnamed/part_003`) -/

namespace ClientPoll

/-- A transcript message as the page component stores it. -/
structure PMsg where
  id : String
  content : String
  isFromAgent : Bool
deriving DecidableEq

/-- `const maxPolls = 15`. -/
def maxPolls : Nat := 15

/-- Milliseconds between poll attempts (`setTimeout(pollForResponse, 1000)`). -/
def pollIntervalMs : Nat := 1000

/-- Milliseconds before the first attempt (`setTimeout(pollForResponse, 2000)`). -/
def pollInitialDelayMs : Nat := 2000

/-- One attempt's outcome as the polling code observes it: `some msgs` when the
fetch succeeded with `success && messages`, `none` for any failure (non-ok
status, error payload, or a thrown exception — all merely logged, never
surfaced to the user). -/
abbrev Fetcher := Nat → Option (List PMsg)

/-- `pollForResponse`: `pollCount` attempts were already made and `budget`
invocations remain before `pollCount >= maxPolls` ends the loop.  Returns how
many fetch attempts ran and the final transcript (replaced verbatim by the
fetched list exactly when its length exceeds `currentMessageCount`). -/
def pollAux (currentMessageCount : Nat) (fetch : Fetcher) (transcript : List PMsg) :
    Nat → Nat → Nat × List PMsg
  | pollCount, 0 => (pollCount, transcript)
  | pollCount, budget + 1 =>
    match fetch pollCount with
    | some msgs =>
      if currentMessageCount < msgs.length then (pollCount + 1, msgs)
      else pollAux currentMessageCount fetch transcript (pollCount + 1) budget
    | none => pollAux currentMessageCount fetch transcript (pollCount + 1) budget

/-- The whole polling loop started after a successful fallback send. -/
def pollForResponse (currentMessageCount : Nat) (fetch : Fetcher) (transcript : List PMsg) :
    Nat × List PMsg :=
  pollAux currentMessageCount fetch transcript 0 maxPolls

/-- Whether attempt `k` would observe growth past the post-send count. -/
def growthAt (currentMessageCount : Nat) (fetch : Fetcher) (k : Nat) : Bool :=
  match fetch k with
  | some msgs => currentMessageCount < msgs.length
  | none => false

end ClientPoll

/-! ### The typing-indicator debounce effect (`src/unnamed/part_001`) -/

namespace Typing

/-- JavaScript truthiness of `input.trim()`: some non-whitespace character. -/
def hasText (s : String) : Bool := s.data.any (fun c => !c.isWhitespace)

/-- The component state the effect touches: the input value, the `isTyping`
flag, and whether the quiet-period timer is armed. -/
structure TypState where
  input : String
  isTyping : Bool
  timerSet : Bool
deriving DecidableEq

/-- One run of the `useEffect` body: emit `typing=true` when the input has text
and the flag is clear, and always clear-and-rearm the 1000ms quiet timer. -/
def effectBody (s : TypState) : TypState × List Bool :=
  if hasText s.input && !s.isTyping then
    (⟨s.input, true, true⟩, [true])
  else
    (⟨s.input, s.isTyping, true⟩, [])

/-- React re-runs the effect while its dependencies (`input`, `isTyping`)
changed; one extra run suffices because the body can only flip `isTyping`
from false to true once and never touches `input`. -/
def settle (s : TypState) : TypState × List Bool :=
  let p := effectBody s
  if p.fst.isTyping = s.isTyping then p
  else
    let q := effectBody p.fst
    (q.fst, p.snd ++ q.snd)

/-- External stimuli: a keystroke replacing the input value, or the quiet-period
timer firing. -/
inductive TypEvent where
  | key (v : String)
  | fire
deriving DecidableEq

/-- A keystroke changes `input`, so the effect re-runs.  A timer expiry runs the
timeout callback — `setIsTyping(false)` plus an unconditional
`sendTypingIndicator(false)` — and re-runs the effect only when the flag
actually changed (otherwise React bails out and the timer stays disarmed). -/
def typStep (s : TypState) : TypEvent → TypState × List Bool
  | .key v => settle ⟨v, s.isTyping, s.timerSet⟩
  | .fire =>
    if s.timerSet then
      let s1 : TypState := ⟨s.input, false, false⟩
      if s.isTyping then
        let p := settle s1
        (p.fst, false :: p.snd)
      else (s1, [false])
    else (s, [])

def typRun : TypState → List TypEvent → TypState × List Bool
  | s, [] => (s, [])
  | s, e :: rest =>
    let p := typStep s e
    let q := typRun p.fst rest
    (q.fst, p.snd ++ q.snd)

/-- The state right after mount (the effect runs once on an empty input). -/
def typInit : TypState := (settle ⟨"", false, false⟩).fst

end Typing

/-! ### The live-channel send path and its echo handling (`src/unnamed/part_001`) -/

namespace LiveSend

/-- A transcript entry in the websocket-enabled chat view. -/
structure CMsg where
  id : String
  content : String
  status : String
deriving DecidableEq

/-- Optimistic append in `sending` state. -/
def addOptimistic (t : List CMsg) (mid content : String) : List CMsg :=
  t ++ [⟨mid, content, "sending"⟩]

/-- Flip the optimistic entry to `sent` once the websocket push returned. -/
def markSent (t : List CMsg) (mid : String) : List CMsg :=
  t.map (fun m => if m.id = mid then ⟨m.id, m.content, "sent"⟩ else m)

/-- The `onMessage` callback: append the broadcast envelope unless an entry
with the same identifier is already present. -/
def onMessage (t : List CMsg) (m : CMsg) : List CMsg :=
  if t.any (fun e => e.id == m.id) then t else t ++ [m]

/-- The live-channel send as the originating session observes it: optimistic
append under the locally generated `clientId`, status flip to `sent`, then the
server's broadcast — which carries the server-stamped `serverId`, since the
websocket payload transmits no identifier — arrives back through `onMessage`. -/
def liveSendRoundTrip (t : List CMsg) (clientId serverId content status2 : String) :
    List CMsg :=
  let t1 := addOptimistic t clientId content
  let t2 := markSent t1 clientId
  onMessage t2 ⟨serverId, content, status2⟩

end LiveSend

/-! ### Further lemmas about the map/set primitives -/

theorem mem_updateA {α : Type} (m : List (String × α)) (k : String) (v : α) (p : String × α) :
    p ∈ updateA m k v → p = (k, v) ∨ p ∈ m := by
  induction m with
  | nil => intro h; simpa [updateA] using h
  | cons q rest ih =>
    intro h
    obtain ⟨k2, w⟩ := q
    by_cases h2 : k = k2
    · subst h2
      rw [show updateA ((k, w) :: rest) k v = (k, v) :: rest from by simp [updateA]] at h
      rcases List.mem_cons.mp h with h | h
      · exact Or.inl h
      · exact Or.inr (List.mem_cons_of_mem _ h)
    · rw [show updateA ((k2, w) :: rest) k v = (k2, w) :: updateA rest k v from by
        simp [updateA, h2]] at h
      rcases List.mem_cons.mp h with h | h
      · exact Or.inr (by simp [h])
      · rcases ih h with h3 | h3
        · exact Or.inl h3
        · exact Or.inr (List.mem_cons_of_mem _ h3)

theorem eraseA_sublist {α : Type} (m : List (String × α)) (k : String) :
    (eraseA m k).Sublist m := by
  induction m with
  | nil => simp [eraseA]
  | cons q rest ih =>
    obtain ⟨k2, w⟩ := q
    by_cases h2 : k = k2
    · simp only [eraseA, if_pos h2]
      exact List.sublist_cons_self _ _
    · simpa [eraseA, h2] using ih.cons₂ (k2, w)

theorem setErase_length_le (xs : List String) (x : String) :
    (setErase xs x).length ≤ xs.length := by
  induction xs with
  | nil => simp [setErase]
  | cons z rest ih =>
    by_cases h2 : x = z
    · simp [setErase, h2]
    · simp only [setErase, if_neg h2, List.length_cons]
      omega

theorem not_mem_map_fst_eraseA {α : Type} (m : List (String × α)) (k : String)
    (hnd : (m.map Prod.fst).Nodup) : k ∉ (eraseA m k).map Prod.fst := by
  induction m with
  | nil => simp [eraseA]
  | cons q rest ih =>
    obtain ⟨k2, w⟩ := q
    simp only [List.map_cons, List.nodup_cons] at hnd
    by_cases h2 : k = k2
    · subst h2
      simpa [eraseA] using hnd.1
    · simp only [eraseA, if_neg h2, List.map_cons, List.mem_cons]
      push_neg
      exact ⟨h2, ih hnd.2⟩

/-! ### Server-side theorems -/

namespace Server

/-- Invariant: every transport subscription list holds at most one room. -/
def InvSR (st : SrvState) : Prop := ∀ p ∈ st.socketRooms, p.2.length ≤ 1

theorem sockRoomsOf_length_le (st : SrvState) (sid : String) (h : InvSR st) :
    (sockRoomsOf st sid).length ≤ 1 := by
  unfold sockRoomsOf
  cases hg : getA st.socketRooms sid with
  | none => simp
  | some v => simpa using h _ (getA_mem _ _ _ hg)

theorem step_preserves_InvSR (st : SrvState) (op : SrvOp) (h : InvSR st) :
    InvSR (step st op).fst := by
  cases op with
  | connect sid uid =>
    cases uid with
    | none => exact h
    | some u => exact h
  | joinChat sid chatId uid =>
    intro p hp
    rcases mem_updateA _ _ _ _ hp with h2 | h2
    · subst h2; simp
    · exact h _ h2
  | leaveChat sid chatId uid =>
    intro p hp
    rcases mem_updateA _ _ _ _ hp with h2 | h2
    · subst h2
      exact le_trans (setErase_length_le _ _) (sockRoomsOf_length_le st sid h)
    · exact h _ h2
  | sendMsg sid chatId uid content msgId => exact h
  | typing sid chatId uid b => exact h
  | disconnect sid =>
    intro p hp
    have hp2 : p ∈ (disconnectH st sid).fst.socketRooms := hp
    cases hg : getA st.activeConnections sid with
    | none =>
      simp only [disconnectH, hg] at hp2
      exact h _ ((eraseA_sublist _ _).subset hp2)
    | some u =>
      simp only [disconnectH, hg] at hp2
      exact h _ ((eraseA_sublist _ _).subset hp2)

theorem runOps_preserves_InvSR (ops : List SrvOp) (st : SrvState) (h : InvSR st) :
    InvSR (runOps st ops).fst := by
  induction ops generalizing st with
  | nil => exact h
  | cons op rest ih =>
    exact ih _ (step_preserves_InvSR st op h)

end Server

theorem mem_setInsert_of_mem (xs : List String) (x y : String) (h : x ∈ xs) :
    x ∈ setInsert xs y := by
  unfold setInsert
  split
  · exact h
  · exact List.mem_append_left _ h

theorem self_mem_setInsert (xs : List String) (y : String) : y ∈ setInsert xs y := by
  unfold setInsert
  split
  · assumption
  · simp

/-! ### Claim C1 -/

/-- The C1 scenario trace: `u1` (socket `s1`) joins `R1`, then joins `R2`
without leaving, while `u2` (socket `s2`) sits in `R1`. -/
def c1ops : List Server.SrvOp :=
  [Server.SrvOp.connect "s1" (some "u1"), Server.SrvOp.connect "s2" (some "u2"),
   Server.SrvOp.joinChat "s2" "R1" "u2", Server.SrvOp.joinChat "s1" "R1" "u1",
   Server.SrvOp.joinChat "s1" "R2" "u1"]

/-- C1 fails on the code: after joining `R2` the tracker still records `u1` in
`R1`'s member set as well as in `R2`'s (so not "at most one room"), and the
whole trace emits no `left` event at all — `s2`, still in `R1`, is never told
that `u1` left. -/
theorem c1_tracker_double_membership_cex :
    "u1" ∈ Server.trackerMembers (Server.runOps Server.srvInit c1ops).fst "R1" ∧
    "u1" ∈ Server.trackerMembers (Server.runOps Server.srvInit c1ops).fst "R2" ∧
    (Server.runOps Server.srvInit c1ops).snd.countP (fun e => e.event == "user-left") = 0 := by
  decide

/-- C1 (amended): for every sequence of operations, a session's
transport-level room subscription holds at most one room (join leaves all
previous socket.io rooms first); the tracker, however, is only ever added to
by `Join` — a join emits exactly one event, a `user-joined` to the new room,
removes no user from any room's tracker set (so no `left` event and no
tracker cleanup for previously joined rooms), and records the joiner in the
new room's set. -/
theorem c1_transport_single_room_join_untracked
    (ops : List Server.SrvOp) (st : Server.SrvState) (sid sid2 chatId uid r u : String)
    (hmem : u ∈ Server.trackerMembers st r) :
    (Server.sockRoomsOf (Server.runOps Server.srvInit ops).fst sid2).length ≤ 1 ∧
    (Server.step st (Server.SrvOp.joinChat sid chatId uid)).snd.map (fun e => e.event)
      = ["user-joined"] ∧
    u ∈ Server.trackerMembers (Server.step st (Server.SrvOp.joinChat sid chatId uid)).fst r ∧
    uid ∈ Server.trackerMembers (Server.step st (Server.SrvOp.joinChat sid chatId uid)).fst chatId := by
  refine ⟨?_, rfl, ?_, ?_⟩
  · exact Server.sockRoomsOf_length_le _ sid2
      (Server.runOps_preserves_InvSR ops Server.srvInit (fun p hp => by simp [Server.srvInit] at hp))
  · show u ∈ Server.trackerMembers
      ⟨st.activeConnections,
       updateA st.chatRooms chatId (setInsert (Server.trackerMembers st chatId) uid),
       updateA st.socketRooms sid [chatId]⟩ r
    unfold Server.trackerMembers at hmem ⊢
    by_cases hr : r = chatId
    · subst hr
      rw [getA_updateA_self]
      exact mem_setInsert_of_mem _ _ _ hmem
    · rw [getA_updateA_ne _ _ _ _ hr]
      exact hmem
  · show uid ∈ Server.trackerMembers
      ⟨st.activeConnections,
       updateA st.chatRooms chatId (setInsert (Server.trackerMembers st chatId) uid),
       updateA st.socketRooms sid [chatId]⟩ chatId
    unfold Server.trackerMembers
    rw [getA_updateA_self]
    exact self_mem_setInsert _ _

/-- A state with `u1` (socket `s1`) joined to room `R`, used to instantiate
hypothesis-bearing theorems. -/
def c1wst : Server.SrvState :=
  (Server.runOps Server.srvInit
    [Server.SrvOp.connect "s1" (some "u1"), Server.SrvOp.joinChat "s1" "R" "u1"]).fst

/-- Witness for `c1_transport_single_room_join_untracked` at a concrete state. -/
theorem c1_transport_single_room_join_untracked_witness :
    "u1" ∈ Server.trackerMembers c1wst "R" ∧
    ((Server.sockRoomsOf (Server.runOps Server.srvInit c1ops).fst "s1").length ≤ 1 ∧
     (Server.step c1wst (Server.SrvOp.joinChat "s1" "R2" "u1")).snd.map (fun e => e.event)
       = ["user-joined"] ∧
     "u1" ∈ Server.trackerMembers (Server.step c1wst (Server.SrvOp.joinChat "s1" "R2" "u1")).fst "R" ∧
     "u1" ∈ Server.trackerMembers (Server.step c1wst (Server.SrvOp.joinChat "s1" "R2" "u1")).fst "R2") :=
  ⟨by decide,
   c1_transport_single_room_join_untracked c1ops c1wst "s1" "s1" "R2" "u1" "R" "u1" (by decide)⟩

/-! ### Claim C4 -/

/-- The C4 scenario trace: `u1` joins `R`, `u2` joins `R`, then `u1` joins `R`
again. -/
def c4ops : List Server.SrvOp :=
  [Server.SrvOp.connect "s1" (some "u1"), Server.SrvOp.connect "s2" (some "u2"),
   Server.SrvOp.joinChat "s1" "R" "u1", Server.SrvOp.joinChat "s2" "R" "u2",
   Server.SrvOp.joinChat "s1" "R" "u1"]

/-- C4 fails on the code: the repeated join of `R` leaves the member set
unchanged, but a third `user-joined` event is still emitted and delivered to
the other room member `s2` — a duplicate `joined` notification. -/
theorem c4_rejoin_duplicate_joined_cex :
    Server.trackerMembers (Server.runOps Server.srvInit c4ops).fst "R" = ["u1", "u2"] ∧
    (Server.runOps Server.srvInit c4ops).snd =
      [⟨"user-joined", "R", "u1", "", "", []⟩,
       ⟨"user-joined", "R", "u2", "", "", ["s1"]⟩,
       ⟨"user-joined", "R", "u1", "", "", ["s2"]⟩] := by
  decide

/-- C4 (amended): re-joining a room the user is already a member of is a no-op
for the tracker's membership map, but it is not silent — exactly one further
`user-joined` event is emitted to the room's other sockets. -/
theorem c4_rejoin_membership_noop_duplicate_emit
    (st : Server.SrvState) (sid chatId uid : String)
    (hmem : uid ∈ Server.trackerMembers st chatId) :
    (Server.step st (Server.SrvOp.joinChat sid chatId uid)).fst.chatRooms = st.chatRooms ∧
    (Server.step st (Server.SrvOp.joinChat sid chatId uid)).snd =
      [⟨"user-joined", chatId, uid, "", "",
        Server.socketTo (Server.step st (Server.SrvOp.joinChat sid chatId uid)).fst.socketRooms
          sid chatId⟩] := by
  constructor
  · show updateA st.chatRooms chatId (setInsert (Server.trackerMembers st chatId) uid)
      = st.chatRooms
    unfold Server.trackerMembers at hmem
    cases hg : getA st.chatRooms chatId with
    | none => rw [hg] at hmem; simp at hmem
    | some ms =>
      rw [hg] at hmem
      simp only [Option.getD_some] at hmem
      have hv : setInsert (Server.trackerMembers st chatId) uid = ms := by
        unfold Server.trackerMembers
        rw [hg]
        exact setInsert_of_mem _ _ hmem
      rw [hv]
      exact updateA_self_eq _ _ _ hg
  · rfl

/-- Witness for `c4_rejoin_membership_noop_duplicate_emit` at a concrete state. -/
theorem c4_rejoin_membership_noop_duplicate_emit_witness :
    "u1" ∈ Server.trackerMembers c1wst "R" ∧
    ((Server.step c1wst (Server.SrvOp.joinChat "s1" "R" "u1")).fst.chatRooms = c1wst.chatRooms ∧
     (Server.step c1wst (Server.SrvOp.joinChat "s1" "R" "u1")).snd =
       [⟨"user-joined", "R", "u1", "", "",
         Server.socketTo (Server.step c1wst (Server.SrvOp.joinChat "s1" "R" "u1")).fst.socketRooms
           "s1" "R"⟩]) :=
  ⟨by decide, c4_rejoin_membership_noop_duplicate_emit c1wst "s1" "R" "u1" (by decide)⟩

/-! ### Claim C3 -/

/-- The C3 scenario trace: `u1` and `u2` join `R`, then `u1` leaves twice. -/
def c3ops : List Server.SrvOp :=
  [Server.SrvOp.connect "s1" (some "u1"), Server.SrvOp.connect "s2" (some "u2"),
   Server.SrvOp.joinChat "s1" "R" "u1", Server.SrvOp.joinChat "s2" "R" "u2",
   Server.SrvOp.leaveChat "s1" "R" "u1", Server.SrvOp.leaveChat "s1" "R" "u1"]

/-- C3 fails on the code: the second `leave-chat` for the same (session, room)
emits a second, identical `user-left` notification, delivered to the remaining
member's socket `s2` — observably different from calling `Leave` once. -/
theorem c3_leave_duplicate_left_event_cex :
    (Server.runOps Server.srvInit c3ops).snd.filter (fun e => e.event == "user-left")
      = [⟨"user-left", "R", "u1", "", "", ["s2"]⟩,
         ⟨"user-left", "R", "u1", "", "", ["s2"]⟩] := by
  decide

theorem leaveSocket_idem (sr : List (String × List String)) (sid chatId : String)
    (hv : ∀ p ∈ sr, p.2.Nodup) :
    Server.leaveSocket (Server.leaveSocket sr sid chatId) sid chatId
      = Server.leaveSocket sr sid chatId := by
  have hnd : ((getA sr sid).getD []).Nodup := by
    cases hg : getA sr sid with
    | none => simp
    | some xs => simpa using hv _ (getA_mem _ _ _ hg)
  unfold Server.leaveSocket
  rw [getA_updateA_self]
  simp only [Option.getD_some]
  rw [setErase_not_mem _ _ (not_mem_setErase_self _ _ hnd)]
  exact updateA_self_eq _ _ _ (getA_updateA_self _ _ _)

theorem leaveTracker_idem (cr : List (String × List String)) (chatId uid : String)
    (hk : (cr.map Prod.fst).Nodup) (hv : ∀ p ∈ cr, p.2.Nodup) :
    Server.leaveTracker (Server.leaveTracker cr chatId uid) chatId uid
      = Server.leaveTracker cr chatId uid := by
  cases hg : getA cr chatId with
  | none =>
    have hLT : Server.leaveTracker cr chatId uid = cr := by
      unfold Server.leaveTracker
      rw [hg]
    rw [hLT, hLT]
  | some ms =>
    have hndms : ms.Nodup := by simpa using hv _ (getA_mem _ _ _ hg)
    by_cases h0 : setErase ms uid = []
    · have hLT : Server.leaveTracker cr chatId uid = eraseA cr chatId := by
        unfold Server.leaveTracker
        rw [hg]
        simp [h0]
      rw [hLT]
      unfold Server.leaveTracker
      rw [getA_eraseA_self _ _ hk]
    · have hLT : Server.leaveTracker cr chatId uid = updateA cr chatId (setErase ms uid) := by
        unfold Server.leaveTracker
        rw [hg]
        simp [h0]
      rw [hLT]
      unfold Server.leaveTracker
      rw [getA_updateA_self]
      simp only [setErase_not_mem _ _ (not_mem_setErase_self _ _ hndms), if_neg h0]
      exact updateA_self_eq _ _ _ (getA_updateA_self _ _ _)

/-- C3 (amended): the second `Leave` for the same (session, room) is a no-op on
the membership state — both the tracker map and the transport subscriptions
are unchanged — but it is not silent: it emits one more `user-left`
notification to the room's remaining member sockets. -/
theorem c3_leave_idempotent_state_duplicate_emit
    (st : Server.SrvState) (sid chatId uid : String) (hwf : Server.WFS st) :
    Server.step (Server.step st (Server.SrvOp.leaveChat sid chatId uid)).fst
        (Server.SrvOp.leaveChat sid chatId uid)
      = ((Server.step st (Server.SrvOp.leaveChat sid chatId uid)).fst,
         [⟨"user-left", chatId, uid, "", "",
           Server.socketTo
             (Server.step st (Server.SrvOp.leaveChat sid chatId uid)).fst.socketRooms
             sid chatId⟩]) := by
  have h1 := leaveSocket_idem st.socketRooms sid chatId hwf.2.2.2.2
  have h2 := leaveTracker_idem st.chatRooms chatId uid hwf.2.1 hwf.2.2.1
  have e1 : Server.step (Server.step st (Server.SrvOp.leaveChat sid chatId uid)).fst
      (Server.SrvOp.leaveChat sid chatId uid)
      = (⟨st.activeConnections,
          Server.leaveTracker (Server.leaveTracker st.chatRooms chatId uid) chatId uid,
          Server.leaveSocket (Server.leaveSocket st.socketRooms sid chatId) sid chatId⟩,
         [⟨"user-left", chatId, uid, "", "",
           Server.socketTo
             (Server.leaveSocket (Server.leaveSocket st.socketRooms sid chatId) sid chatId)
             sid chatId⟩]) := rfl
  rw [e1, h1, h2]
  rfl

/-- Witness for `c3_leave_idempotent_state_duplicate_emit` at a concrete state. -/
theorem c3_leave_idempotent_state_duplicate_emit_witness :
    Server.WFS c1wst ∧
    Server.step (Server.step c1wst (Server.SrvOp.leaveChat "s1" "R" "u1")).fst
        (Server.SrvOp.leaveChat "s1" "R" "u1")
      = ((Server.step c1wst (Server.SrvOp.leaveChat "s1" "R" "u1")).fst,
         [⟨"user-left", "R", "u1", "", "",
           Server.socketTo
             (Server.step c1wst (Server.SrvOp.leaveChat "s1" "R" "u1")).fst.socketRooms
             "s1" "R"⟩]) :=
  ⟨by decide, c3_leave_idempotent_state_duplicate_emit c1wst "s1" "R" "u1" (by decide)⟩

/-! ### Claim C2 -/

theorem not_mem_socketTo_self (sr : List (String × List String)) (sid roomId : String) :
    sid ∉ Server.socketTo sr sid roomId := by
  unfold Server.socketTo
  intro h
  have := (List.mem_filter.mp h).2
  simp at this

theorem disconnectRooms_mem (uid : String) (m : List (String × List String))
    (q : String × List String) :
    (∀ p ∈ m, p.2.Nodup) → q ∈ Server.disconnectRooms uid m → uid ∉ q.2 := by
  induction m with
  | nil => intro _ hq; simp [Server.disconnectRooms] at hq
  | cons p2 rest ih =>
    intro hv hq
    obtain ⟨r2, ms2⟩ := p2
    have hv2 : ∀ p ∈ rest, p.2.Nodup := fun p hp => hv p (List.mem_cons_of_mem _ hp)
    have hnd2 : ms2.Nodup := by simpa using hv (r2, ms2) (List.mem_cons_self _ _)
    by_cases hin : uid ∈ ms2
    · simp only [Server.disconnectRooms, if_pos hin] at hq
      by_cases h0 : setErase ms2 uid = []
      · rw [if_pos h0] at hq
        exact ih hv2 hq
      · rw [if_neg h0] at hq
        rcases List.mem_cons.mp hq with h | h
        · subst h
          exact not_mem_setErase_self _ _ hnd2
        · exact ih hv2 h
    · simp only [Server.disconnectRooms, if_neg hin] at hq
      rcases List.mem_cons.mp hq with h | h
      · subst h
        exact hin
      · exact ih hv2 h

theorem disconnectRooms_keys_sublist (uid : String) (m : List (String × List String)) :
    ((Server.disconnectRooms uid m).map Prod.fst).Sublist (m.map Prod.fst) := by
  induction m with
  | nil => simp [Server.disconnectRooms]
  | cons p2 rest ih =>
    obtain ⟨r2, ms2⟩ := p2
    by_cases hin : uid ∈ ms2
    · simp only [Server.disconnectRooms, if_pos hin]
      by_cases h0 : setErase ms2 uid = []
      · rw [if_pos h0]
        exact ih.trans (List.sublist_cons_self _ _)
      · rw [if_neg h0]
        simpa using ih.cons₂ r2
    · simp only [Server.disconnectRooms, if_neg hin]
      simpa using ih.cons₂ r2

theorem disconnectRooms_getA (uid R : String) (ms : List String)
    (m : List (String × List String)) (hk : (m.map Prod.fst).Nodup) :
    getA m R = some ms → uid ∈ ms →
    getA (Server.disconnectRooms uid m) R
      = if setErase ms uid = [] then none else some (setErase ms uid) := by
  induction m with
  | nil => intro hg _; simp [getA] at hg
  | cons p2 rest ih =>
    intro hg hm
    obtain ⟨r2, ms2⟩ := p2
    simp only [List.map_cons, List.nodup_cons] at hk
    by_cases hR : R = r2
    · subst hR
      have hms : ms2 = ms := by simpa [getA] using hg
      subst hms
      simp only [Server.disconnectRooms, if_pos hm]
      by_cases h0 : setErase ms2 uid = []
      · rw [if_pos h0, if_pos h0]
        exact getA_eq_none_of_not_mem _ _
          (fun hc => hk.1 ((disconnectRooms_keys_sublist uid rest).subset hc))
      · rw [if_neg h0, if_neg h0]
        simp [getA]
    · have hg2 : getA rest R = some ms := by
        rw [getA, if_neg hR] at hg
        exact hg
      by_cases hin : uid ∈ ms2
      · simp only [Server.disconnectRooms, if_pos hin]
        by_cases h0 : setErase ms2 uid = []
        · rw [if_pos h0]
          exact ih hk.2 hg2 hm
        · rw [if_neg h0, getA, if_neg hR]
          exact ih hk.2 hg2 hm
      · simp only [Server.disconnectRooms, if_neg hin]
        rw [getA, if_neg hR]
        exact ih hk.2 hg2 hm

theorem countP_key_zero (m : List (String × List String)) (R : String)
    (p : String × List String → Bool) (h : R ∉ m.map Prod.fst) :
    (m.filter p).countP (fun q => q.1 == R) = 0 := by
  rw [List.countP_eq_zero]
  intro a ha
  have ham : a ∈ m := (List.mem_filter.mp ha).1
  have hne : a.1 ≠ R := fun he => h (he ▸ List.mem_map_of_mem Prod.fst ham)
  simpa using hne

theorem countP_key_filter (m : List (String × List String)) (uid R : String)
    (ms : List String) (hk : (m.map Prod.fst).Nodup) :
    getA m R = some ms → uid ∈ ms →
    (m.filter (fun q => q.2.contains uid)).countP (fun q => q.1 == R) = 1 := by
  induction m with
  | nil => intro hg _; simp [getA] at hg
  | cons q2 rest ih =>
    intro hg hm
    obtain ⟨r2, ms2⟩ := q2
    simp only [List.map_cons, List.nodup_cons] at hk
    by_cases hR : R = r2
    · subst hR
      have hms : ms2 = ms := by simpa [getA] using hg
      subst hms
      have hc : ms2.contains uid = true := by simp [List.contains, hm]
      rw [List.filter_cons_of_pos (by simpa using hc), List.countP_cons]
      rw [countP_key_zero rest R _ hk.1]
      simp
    · have hg2 : getA rest R = some ms := by
        rw [getA, if_neg hR] at hg
        exact hg
      have hr2 : (r2 == R) = false := by
        simp only [beq_eq_false_iff_ne, ne_eq]
        exact fun he => hR he.symm
      by_cases hc : ms2.contains uid
      · rw [List.filter_cons_of_pos (by simpa using hc), List.countP_cons, hr2]
        simpa using ih hk.2 hg2 hm
      · rw [List.filter_cons_of_neg (by simpa using hc)]
        exact ih hk.2 hg2 hm

/-- C2: a disconnect of a registered session scrubs its user identifier from
every room's tracker set (so no membership leaks), deletes a room's entry when
its set becomes empty, emits exactly one `user-left` for the room the session
was in — never to the disconnecting socket itself — with recipients the room's
remaining sockets, and a repeated disconnect of the same (now removed) session
is a complete, error-free no-op; a disconnect of a session with no
`activeConnections` entry touches neither the tracker nor the registry and
emits nothing. -/
theorem c2_disconnect_cleanup
    (st : Server.SrvState) (sid uid R : String) (hwf : Server.WFS st)
    (hconn : getA st.activeConnections sid = some uid)
    (hmem : uid ∈ Server.trackerMembers st R) :
    (∀ r, uid ∉ Server.trackerMembers (Server.step st (Server.SrvOp.disconnect sid)).fst r) ∧
    (setErase (Server.trackerMembers st R) uid = [] →
      getA (Server.step st (Server.SrvOp.disconnect sid)).fst.chatRooms R = none) ∧
    (Server.step st (Server.SrvOp.disconnect sid)).snd.countP
      (fun e => e.event == "user-left" && e.room == R) = 1 ∧
    (∀ e ∈ (Server.step st (Server.SrvOp.disconnect sid)).snd,
      e.event = "user-left" ∧ sid ∉ e.recipients ∧
      e.recipients = Server.socketTo (eraseA st.socketRooms sid) sid e.room) ∧
    Server.step (Server.step st (Server.SrvOp.disconnect sid)).fst (Server.SrvOp.disconnect sid)
      = ((Server.step st (Server.SrvOp.disconnect sid)).fst, []) ∧
    (∀ st2 : Server.SrvState, getA st2.activeConnections sid = none →
      (Server.step st2 (Server.SrvOp.disconnect sid)).snd = [] ∧
      (Server.step st2 (Server.SrvOp.disconnect sid)).fst.chatRooms = st2.chatRooms ∧
      (Server.step st2 (Server.SrvOp.disconnect sid)).fst.activeConnections
        = st2.activeConnections) := by
  have hgR : getA st.chatRooms R = some (Server.trackerMembers st R) := by
    unfold Server.trackerMembers at hmem ⊢
    cases hg : getA st.chatRooms R with
    | none => rw [hg] at hmem; simp at hmem
    | some ms => simp
  have e1 : Server.step st (Server.SrvOp.disconnect sid)
      = (⟨eraseA st.activeConnections sid, Server.disconnectRooms uid st.chatRooms,
          eraseA st.socketRooms sid⟩,
         (st.chatRooms.filter (fun q => q.2.contains uid)).map
           (fun q => (⟨"user-left", q.1, uid, "", "",
             Server.socketTo (eraseA st.socketRooms sid) sid q.1⟩ : Server.Emit))) := by
    show Server.disconnectH st sid = _
    simp only [Server.disconnectH]
    rw [hconn]
  have hnoop : ∀ st2 : Server.SrvState, getA st2.activeConnections sid = none →
      (Server.step st2 (Server.SrvOp.disconnect sid)).snd = [] ∧
      (Server.step st2 (Server.SrvOp.disconnect sid)).fst.chatRooms = st2.chatRooms ∧
      (Server.step st2 (Server.SrvOp.disconnect sid)).fst.activeConnections
        = st2.activeConnections := by
    intro st2 hg2
    have e2 : Server.step st2 (Server.SrvOp.disconnect sid)
        = (⟨st2.activeConnections, st2.chatRooms, eraseA st2.socketRooms sid⟩, []) := by
      show Server.disconnectH st2 sid = _
      simp only [Server.disconnectH]
      rw [hg2]
    rw [e2]
    exact ⟨rfl, rfl, rfl⟩
  refine ⟨?_, ?_, ?_, ?_, ?_, hnoop⟩
  · intro r
    rw [e1]
    unfold Server.trackerMembers
    cases hg : getA (Server.disconnectRooms uid st.chatRooms) r with
    | none => simp
    | some ms =>
      simp only [Option.getD_some]
      exact disconnectRooms_mem uid st.chatRooms _ hwf.2.2.1 (getA_mem _ _ _ hg)
  · intro h0
    rw [e1]
    rw [disconnectRooms_getA uid R (Server.trackerMembers st R) st.chatRooms hwf.2.1 hgR hmem]
    rw [if_pos h0]
  · rw [e1]
    rw [List.countP_map]
    have hpred : ((fun e : Server.Emit => e.event == "user-left" && e.room == R) ∘
        (fun q : String × List String => (⟨"user-left", q.1, uid, "", "",
          Server.socketTo (eraseA st.socketRooms sid) sid q.1⟩ : Server.Emit)))
        = fun q : String × List String => q.1 == R := by
      funext q
      simp
    rw [hpred]
    exact countP_key_filter st.chatRooms uid R (Server.trackerMembers st R) hwf.2.1 hgR hmem
  · rw [e1]
    intro e he
    rcases List.mem_map.mp he with ⟨q, hq, rfl⟩
    exact ⟨rfl, not_mem_socketTo_self _ _ _, rfl⟩
  · rw [e1]
    have hgone : getA (eraseA st.activeConnections sid) sid = none :=
      getA_eraseA_self _ _ hwf.1
    have e3 : Server.step
        (⟨eraseA st.activeConnections sid, Server.disconnectRooms uid st.chatRooms,
          eraseA st.socketRooms sid⟩ : Server.SrvState) (Server.SrvOp.disconnect sid)
        = (⟨eraseA st.activeConnections sid, Server.disconnectRooms uid st.chatRooms,
            eraseA (eraseA st.socketRooms sid) sid⟩, []) := by
      show Server.disconnectH _ sid = _
      simp only [Server.disconnectH]
      rw [hgone]
    rw [e3, eraseA_not_mem _ _ (not_mem_map_fst_eraseA _ _ hwf.2.2.2.1)]

/-- A two-member room state for witnessing the disconnect theorem. -/
def c2wst : Server.SrvState :=
  (Server.runOps Server.srvInit
    [Server.SrvOp.connect "s1" (some "u1"), Server.SrvOp.connect "s2" (some "u2"),
     Server.SrvOp.joinChat "s1" "R" "u1", Server.SrvOp.joinChat "s2" "R" "u2"]).fst

/-- Witness for `c2_disconnect_cleanup` at a concrete two-member room. -/
theorem c2_disconnect_cleanup_witness :
    (Server.WFS c2wst ∧ getA c2wst.activeConnections "s1" = some "u1" ∧
     "u1" ∈ Server.trackerMembers c2wst "R") ∧
    ((∀ r, "u1" ∉ Server.trackerMembers (Server.step c2wst (Server.SrvOp.disconnect "s1")).fst r) ∧
     (setErase (Server.trackerMembers c2wst "R") "u1" = [] →
       getA (Server.step c2wst (Server.SrvOp.disconnect "s1")).fst.chatRooms "R" = none) ∧
     (Server.step c2wst (Server.SrvOp.disconnect "s1")).snd.countP
       (fun e => e.event == "user-left" && e.room == "R") = 1 ∧
     (∀ e ∈ (Server.step c2wst (Server.SrvOp.disconnect "s1")).snd,
       e.event = "user-left" ∧ "s1" ∉ e.recipients ∧
       e.recipients = Server.socketTo (eraseA c2wst.socketRooms "s1") "s1" e.room) ∧
     Server.step (Server.step c2wst (Server.SrvOp.disconnect "s1")).fst
         (Server.SrvOp.disconnect "s1")
       = ((Server.step c2wst (Server.SrvOp.disconnect "s1")).fst, []) ∧
     (∀ st2 : Server.SrvState, getA st2.activeConnections "s1" = none →
       (Server.step st2 (Server.SrvOp.disconnect "s1")).snd = [] ∧
       (Server.step st2 (Server.SrvOp.disconnect "s1")).fst.chatRooms = st2.chatRooms ∧
       (Server.step st2 (Server.SrvOp.disconnect "s1")).fst.activeConnections
         = st2.activeConnections)) :=
  ⟨⟨by decide, by decide, by decide⟩,
   c2_disconnect_cleanup c2wst "s1" "u1" "R" (by decide) (by decide) (by decide)⟩

/-! ### Claim C9 -/

theorem mem_socketTo (sr : List (String × List String)) (sid roomId s2 : String) :
    s2 ∈ Server.socketTo sr sid roomId ↔ s2 ∈ Server.roomSockets sr roomId ∧ s2 ≠ sid := by
  unfold Server.socketTo
  rw [List.mem_filter]
  simp

/-- C9: the `new-message` broadcast (`io.to`) is delivered to every socket in
the room including the sender's own socket, while `user-joined`, `user-left`
and the two typing events (`socket.to`) are delivered to every socket in the
room except the socket that triggered them. -/
theorem c9_broadcast_asymmetry
    (st : Server.SrvState) (sid chatId uid content msgId : String) (b : Bool)
    (hs : sid ∈ Server.roomSockets st.socketRooms chatId) :
    ((Server.step st (Server.SrvOp.sendMsg sid chatId uid content msgId)).snd
       = [⟨"new-message", chatId, uid, msgId, content,
           Server.roomSockets st.socketRooms chatId⟩] ∧
     sid ∈ Server.roomSockets st.socketRooms chatId) ∧
    (∀ e ∈ (Server.step st (Server.SrvOp.typing sid chatId uid b)).snd,
      sid ∉ e.recipients ∧
      ∀ s2, s2 ∈ e.recipients ↔ s2 ∈ Server.roomSockets st.socketRooms chatId ∧ s2 ≠ sid) ∧
    (∀ e ∈ (Server.step st (Server.SrvOp.joinChat sid chatId uid)).snd,
      sid ∉ e.recipients ∧
      ∀ s2, s2 ∈ e.recipients ↔
        s2 ∈ Server.roomSockets
          (Server.step st (Server.SrvOp.joinChat sid chatId uid)).fst.socketRooms chatId ∧
        s2 ≠ sid) ∧
    (∀ e ∈ (Server.step st (Server.SrvOp.leaveChat sid chatId uid)).snd,
      sid ∉ e.recipients ∧
      ∀ s2, s2 ∈ e.recipients ↔
        s2 ∈ Server.roomSockets
          (Server.step st (Server.SrvOp.leaveChat sid chatId uid)).fst.socketRooms chatId ∧
        s2 ≠ sid) := by
  refine ⟨⟨rfl, hs⟩, ?_, ?_, ?_⟩
  · intro e he
    rw [List.mem_singleton.mp he]
    exact ⟨not_mem_socketTo_self _ _ _, fun s2 => mem_socketTo _ _ _ _⟩
  · intro e he
    rw [List.mem_singleton.mp he]
    exact ⟨not_mem_socketTo_self _ _ _, fun s2 => mem_socketTo _ _ _ _⟩
  · intro e he
    rw [List.mem_singleton.mp he]
    exact ⟨not_mem_socketTo_self _ _ _, fun s2 => mem_socketTo _ _ _ _⟩

/-- Witness for `c9_broadcast_asymmetry` at the concrete two-member room. -/
theorem c9_broadcast_asymmetry_witness :
    "s1" ∈ Server.roomSockets c2wst.socketRooms "R" ∧
    (((Server.step c2wst (Server.SrvOp.sendMsg "s1" "R" "u1" "hi" "m1")).snd
        = [⟨"new-message", "R", "u1", "m1", "hi", Server.roomSockets c2wst.socketRooms "R"⟩] ∧
      "s1" ∈ Server.roomSockets c2wst.socketRooms "R") ∧
     (∀ e ∈ (Server.step c2wst (Server.SrvOp.typing "s1" "R" "u1" true)).snd,
       "s1" ∉ e.recipients ∧
       ∀ s2, s2 ∈ e.recipients ↔ s2 ∈ Server.roomSockets c2wst.socketRooms "R" ∧ s2 ≠ "s1") ∧
     (∀ e ∈ (Server.step c2wst (Server.SrvOp.joinChat "s1" "R" "u1")).snd,
       "s1" ∉ e.recipients ∧
       ∀ s2, s2 ∈ e.recipients ↔
         s2 ∈ Server.roomSockets
           (Server.step c2wst (Server.SrvOp.joinChat "s1" "R" "u1")).fst.socketRooms "R" ∧
         s2 ≠ "s1") ∧
     (∀ e ∈ (Server.step c2wst (Server.SrvOp.leaveChat "s1" "R" "u1")).snd,
       "s1" ∉ e.recipients ∧
       ∀ s2, s2 ∈ e.recipients ↔
         s2 ∈ Server.roomSockets
           (Server.step c2wst (Server.SrvOp.leaveChat "s1" "R" "u1")).fst.socketRooms "R" ∧
         s2 ≠ "s1")) :=
  ⟨by decide, c9_broadcast_asymmetry c2wst "s1" "R" "u1" "hi" "m1" true (by decide)⟩

/-! ### Claim C5 -/

theorem pollAux_fst_le (c : Nat) (fetch : ClientPoll.Fetcher) (t : List ClientPoll.PMsg) :
    ∀ b k, (ClientPoll.pollAux c fetch t k b).fst ≤ k + b := by
  intro b
  induction b with
  | zero => intro k; simp [ClientPoll.pollAux]
  | succ b ih =>
    intro k
    cases hf : fetch k with
    | some msgs =>
      by_cases hl : c < msgs.length
      · simp only [ClientPoll.pollAux, hf, if_pos hl]
        omega
      · simp only [ClientPoll.pollAux, hf, if_neg hl]
        have := ih (k + 1)
        omega
    | none =>
      simp only [ClientPoll.pollAux, hf]
      have := ih (k + 1)
      omega

theorem pollAux_no_growth (c : Nat) (fetch : ClientPoll.Fetcher) (t : List ClientPoll.PMsg) :
    ∀ b k, (∀ j, k ≤ j → j < k + b → ClientPoll.growthAt c fetch j = false) →
      ClientPoll.pollAux c fetch t k b = (k + b, t) := by
  intro b
  induction b with
  | zero => intro k _; simp [ClientPoll.pollAux]
  | succ b ih =>
    intro k h
    have h0 := h k le_rfl (by omega)
    cases hf : fetch k with
    | some msgs =>
      have hl : ¬c < msgs.length := by
        unfold ClientPoll.growthAt at h0
        rw [hf] at h0
        simpa using h0
      simp only [ClientPoll.pollAux, hf, if_neg hl]
      rw [show k + (b + 1) = (k + 1) + b from by omega]
      exact ih (k + 1) (fun j hj hj2 => h j (by omega) (by omega))
    | none =>
      simp only [ClientPoll.pollAux, hf]
      rw [show k + (b + 1) = (k + 1) + b from by omega]
      exact ih (k + 1) (fun j hj hj2 => h j (by omega) (by omega))

theorem pollAux_growth (c : Nat) (fetch : ClientPoll.Fetcher) (t : List ClientPoll.PMsg) :
    ∀ b k i msgs, i < b → fetch (k + i) = some msgs → c < msgs.length →
      (∀ j, j < i → ClientPoll.growthAt c fetch (k + j) = false) →
      ClientPoll.pollAux c fetch t k b = (k + i + 1, msgs) := by
  intro b
  induction b with
  | zero => intro k i msgs hi; omega
  | succ b ih =>
    intro k i msgs hi hf hl hprev
    cases i with
    | zero =>
      rw [show k + 0 = k from rfl] at hf
      simp only [ClientPoll.pollAux, hf, if_pos hl]
    | succ i2 =>
      have h0 := hprev 0 (by omega)
      have step2 : ClientPoll.pollAux c fetch t (k + 1) b = (k + (i2 + 1) + 1, msgs) := by
        have hf2 : fetch ((k + 1) + i2) = some msgs := by
          rw [show (k + 1) + i2 = k + (i2 + 1) from by omega]
          exact hf
        have hres := ih (k + 1) i2 msgs (by omega) hf2 hl
          (fun j hj => by
            have := hprev (j + 1) (by omega)
            rw [show k + (j + 1) = (k + 1) + j from by omega] at this
            exact this)
        rw [hres]
        congr 1
        omega
      cases hf0 : fetch k with
      | some msgs0 =>
        have hl0 : ¬c < msgs0.length := by
          unfold ClientPoll.growthAt at h0
          rw [show k + 0 = k from rfl, hf0] at h0
          simpa using h0
        simp only [ClientPoll.pollAux, hf0, if_neg hl0]
        exact step2
      | none =>
        simp only [ClientPoll.pollAux, hf0]
        exact step2

/-- C5: after a successful fallback send the reconciliation loop makes at most
15 fetch attempts (at the source's 1000ms spacing constant); it stops and
replaces the transcript verbatim with the fetched list at the first attempt
whose list is longer than the post-send message count; and when no attempt
observes growth it performs exactly 15 attempts and stops with the transcript
untouched (the loop surfaces no error — failed fetches are only logged). -/
theorem c5_poll_bounded_growth_triggered
    (c : Nat) (fetch : ClientPoll.Fetcher) (t : List ClientPoll.PMsg) :
    (ClientPoll.pollForResponse c fetch t).fst ≤ ClientPoll.maxPolls ∧
    ((∀ j, j < ClientPoll.maxPolls → ClientPoll.growthAt c fetch j = false) →
      ClientPoll.pollForResponse c fetch t = (ClientPoll.maxPolls, t)) ∧
    (∀ i msgs, i < ClientPoll.maxPolls → fetch i = some msgs → c < msgs.length →
      (∀ j, j < i → ClientPoll.growthAt c fetch j = false) →
      ClientPoll.pollForResponse c fetch t = (i + 1, msgs)) ∧
    ClientPoll.maxPolls = 15 ∧ ClientPoll.pollIntervalMs = 1000 := by
  refine ⟨?_, ?_, ?_, rfl, rfl⟩
  · simpa using pollAux_fst_le c fetch t ClientPoll.maxPolls 0
  · intro h
    unfold ClientPoll.pollForResponse
    have := pollAux_no_growth c fetch t ClientPoll.maxPolls 0
      (fun j _ hj2 => h j (by simpa using hj2))
    simpa using this
  · intro i msgs hi hf hl hprev
    unfold ClientPoll.pollForResponse
    have := pollAux_growth c fetch t ClientPoll.maxPolls 0 i msgs hi (by simpa using hf) hl
      (fun j hj => by simpa using hprev j hj)
    simpa using this

/-- The fetch oracle for the C5 witness: attempts 0 and 1 fail, attempt 2
returns a longer list (the autoresponse arrived). -/
def c5fetch : ClientPoll.Fetcher :=
  fun k => if k = 2 then some [⟨"m1", "a", false⟩, ⟨"m2", "b", true⟩] else none

/-- Witness for `c5_poll_bounded_growth_triggered`: with baseline count 1 the
loop stops at attempt 3 and replaces the transcript; a never-growing fetch
runs all 15 attempts and leaves the transcript alone. -/
theorem c5_poll_bounded_growth_triggered_witness :
    ((2 : Nat) < ClientPoll.maxPolls ∧ c5fetch 2 = some [⟨"m1", "a", false⟩, ⟨"m2", "b", true⟩] ∧
     (1 : Nat) < ([(⟨"m1", "a", false⟩ : ClientPoll.PMsg), ⟨"m2", "b", true⟩]).length ∧
     (∀ j, j < 2 → ClientPoll.growthAt 1 c5fetch j = false)) ∧
    ClientPoll.pollForResponse 1 c5fetch [⟨"m1", "a", false⟩]
      = (3, [⟨"m1", "a", false⟩, ⟨"m2", "b", true⟩]) ∧
    ClientPoll.pollForResponse 1 (fun _ => none) [] = (ClientPoll.maxPolls, []) :=
  ⟨⟨by decide, rfl, by decide, by decide⟩,
   (c5_poll_bounded_growth_triggered 1 c5fetch [⟨"m1", "a", false⟩]).2.2.1 2
     [⟨"m1", "a", false⟩, ⟨"m2", "b", true⟩] (by decide) rfl (by decide) (by decide),
   (c5_poll_bounded_growth_triggered 1 (fun _ => none) []).2.1 (fun j _ => rfl)⟩

/-! ### Claim C7 -/

/-- C7 fails on the code: one keystroke (`"h"`) followed by two quiet seconds
(two timer expiries, no further input) emits `true, false, true, false, true`.
The quiet gap does emit a `typing=false`, but because the effect lists
`isTyping` among its dependencies it re-runs right after the flag is cleared
and — the input text still being non-empty — immediately re-emits
`typing=true` and re-arms the timer, repeating the pair every second; the
claimed "exactly one `typing=false`, no further `typing=true`" is violated. -/
theorem c7_typing_debounce_oscillation_cex :
    (Typing.typRun Typing.typInit
      [Typing.TypEvent.key "h", Typing.TypEvent.fire, Typing.TypEvent.fire]).snd
      = [true, false, true, false, true] := by
  decide

/-- C7 (amended): a keystroke while the typing flag is set emits nothing; a
keystroke with non-empty text while the flag is clear emits exactly one
`typing=true`; a quiet-period expiry with the flag set emits one
`typing=false` — followed immediately by a fresh `typing=true` whenever the
input text is still non-empty (the oscillation above), and by nothing when
the input was cleared. -/
theorem c7_typing_debounce_amended (s : Typing.TypState) (v : String) :
    (s.isTyping = true → (Typing.typStep s (Typing.TypEvent.key v)).snd = []) ∧
    (s.isTyping = false → Typing.hasText v = true →
      (Typing.typStep s (Typing.TypEvent.key v)).snd = [true]) ∧
    (s.isTyping = true → s.timerSet = true → Typing.hasText s.input = true →
      (Typing.typStep s Typing.TypEvent.fire).snd = [false, true]) ∧
    (s.isTyping = true → s.timerSet = true → Typing.hasText s.input = false →
      (Typing.typStep s Typing.TypEvent.fire).snd = [false]) := by
  obtain ⟨inp, ty, tm⟩ := s
  refine ⟨?_, ?_, ?_, ?_⟩
  · intro h
    subst h
    simp [Typing.typStep, Typing.settle, Typing.effectBody]
  · intro h hv
    subst h
    simp [Typing.typStep, Typing.settle, Typing.effectBody, hv]
  · intro h ht hv
    subst h
    subst ht
    simp [Typing.typStep, Typing.settle, Typing.effectBody, hv]
  · intro h ht hv
    subst h
    subst ht
    simp [Typing.typStep, Typing.settle, Typing.effectBody, hv]

/-- Witness for `c7_typing_debounce_amended` at the state after typing `"h"`. -/
theorem c7_typing_debounce_amended_witness :
    ((⟨"h", true, true⟩ : Typing.TypState).isTyping = true ∧
     Typing.hasText (⟨"h", true, true⟩ : Typing.TypState).input = true) ∧
    ((Typing.typStep ⟨"h", true, true⟩ (Typing.TypEvent.key "he")).snd = [] ∧
     (Typing.typStep ⟨"h", true, true⟩ Typing.TypEvent.fire).snd = [false, true]) :=
  ⟨⟨rfl, by decide⟩,
   (c7_typing_debounce_amended ⟨"h", true, true⟩ "he").1 rfl,
   (c7_typing_debounce_amended ⟨"h", true, true⟩ "he").2.2.1 rfl rfl (by decide)⟩

/-! ### Claim C6 -/

/-- C6 fails on the code (a code bug): the optimistic entry is stored under the
client-generated identifier `m-cli`, the websocket payload carries no
identifier at all, and the server stamps a fresh identifier `m-srv` before
broadcasting with `io.to` to every room socket including the sender.  The
sender's `onMessage` de-duplication compares identifiers, `m-srv` matches
nothing, and the transcript ends up with two entries for the one message. -/
theorem c6_live_send_echo_duplicate :
    (Server.step c2wst (Server.SrvOp.sendMsg "s1" "R" "u1" "hello" "m-srv")).snd.map
        (fun e => e.recipients) = [["s1", "s2"]] ∧
    LiveSend.liveSendRoundTrip [] "m-cli" "m-srv" "hello" ""
      = [⟨"m-cli", "hello", "sent"⟩, ⟨"m-srv", "hello", ""⟩] ∧
    (LiveSend.liveSendRoundTrip [] "m-cli" "m-srv" "hello" "").countP
      (fun m => m.content == "hello") = 2 := by
  decide

/-! ### Claim C8 -/

/-- C8 fails on the code: an empty-content, no-file request to the
multipart-capable messages route is not rejected — a message with empty
content is appended to the store and returned as a success. -/
theorem c8_empty_submit_accepted_multipart_cex :
    (ChatApi.postMessageMulti [] (some "u1") (some "c1") "" none "m1" "t1" "/uploads/").fst
      = [⟨"m1", "c1", "", false, "t1", "sent", "text", "", "", "u1"⟩] ∧
    (ChatApi.postMessageMulti [] (some "u1") (some "c1") "" none "m1" "t1" "/uploads/").snd
      = ChatApi.ApiResult.ok ⟨"m1", "c1", "", false, "t1", "sent", "text", "", "", "u1"⟩ := by
  decide

/-- C8 (amended): the JSON messages route rejects an empty or absent `content`
with a 400 error and leaves the store untouched (rejected before any state
mutation), but the multipart-capable route performs no content validation at
all — an empty-content, no-file request appends a message with empty content
and returns it as a success. -/
theorem c8_empty_submit_by_route
    (store : List (String × List ChatApi.JMsg)) (store2 : List ChatApi.MMsg)
    (u cid i1 i2 atext ts nid up : String) :
    ChatApi.postMessageJson store (some u) cid (some "") i1 i2 atext ts
      = (store, ChatApi.ApiResult.fail 400 "Message content is required") ∧
    ChatApi.postMessageJson store (some u) cid none i1 i2 atext ts
      = (store, ChatApi.ApiResult.fail 400 "Message content is required") ∧
    ChatApi.postMessageMulti store2 (some u) (some cid) "" none nid ts up
      = (store2 ++ [⟨nid, cid, "", false, ts, "sent", "text", "", "", u⟩],
         ChatApi.ApiResult.ok ⟨nid, cid, "", false, ts, "sent", "text", "", "", u⟩) := by
  refine ⟨?_, rfl, rfl⟩
  simp [ChatApi.postMessageJson]

/-! ### Claim C10 -/

/-- C10: the chats-list route rejects a request with no `x-user-id` header with
a 400 error; with header `u` it returns exactly the decorations of the stored
chats whose `userId` is `u` — every returned entry belongs to `u`, every
stored chat of `u` is returned, and every returned entry arises from a stored
chat of `u`, so chats created under any other user identifier never appear.
Creating a chat stores it under the header's user identifier. -/
theorem c10_chat_list_isolation (store : List ChatApi.Chat) (u u2 nid ts : String) :
    ChatApi.getChats store none = ChatApi.ApiResult.fail 400 "User ID is required" ∧
    (∀ l, ChatApi.getChats store (some u) = ChatApi.ApiResult.ok l →
      (∀ e ∈ l, e.userId = u) ∧
      (∀ c ∈ store, c.userId = u → ChatApi.decorate c ∈ l) ∧
      (∀ e ∈ l, ∃ c ∈ store, c.userId = u ∧ e = ChatApi.decorate c)) ∧
    ChatApi.postChat store (some u2) nid ts
      = ChatApi.ApiResult.ok
          (store ++ [⟨nid, u2, "Chat " ++ toString (store.length + 1), ts⟩],
           ChatApi.decorate ⟨nid, u2, "Chat " ++ toString (store.length + 1), ts⟩) := by
  refine ⟨rfl, ?_, rfl⟩
  intro l hl
  have hleq : l = (store.filter (fun c => c.userId == u)).map ChatApi.decorate := by
    simp only [ChatApi.getChats, ChatApi.ApiResult.ok.injEq] at hl
    exact hl.symm
  subst hleq
  refine ⟨?_, ?_, ?_⟩
  · intro e he
    rcases List.mem_map.mp he with ⟨c, hc, rfl⟩
    have := (List.mem_filter.mp hc).2
    simpa [ChatApi.decorate] using this
  · intro c hc hcu
    exact List.mem_map_of_mem _ (List.mem_filter.mpr ⟨hc, by simp [hcu]⟩)
  · intro e he
    rcases List.mem_map.mp he with ⟨c, hc, rfl⟩
    exact ⟨c, (List.mem_filter.mp hc).1, by simpa using (List.mem_filter.mp hc).2, rfl⟩

/-- A store holding one chat of `u1` and one of `u2`. -/
def c10store : List ChatApi.Chat :=
  [⟨"c1", "u1", "n1", "t1"⟩, ⟨"c2", "u2", "n2", "t2"⟩]

/-- Witness for `c10_chat_list_isolation`: querying as `u1` returns exactly the
decoration of `u1`'s chat, and `u2`'s chat does not appear. -/
theorem c10_chat_list_isolation_witness :
    ChatApi.getChats c10store (some "u1")
      = ChatApi.ApiResult.ok [ChatApi.decorate ⟨"c1", "u1", "n1", "t1"⟩] ∧
    ((∀ e ∈ [ChatApi.decorate (⟨"c1", "u1", "n1", "t1"⟩ : ChatApi.Chat)], e.userId = "u1") ∧
     (∀ c ∈ c10store, c.userId = "u1" →
       ChatApi.decorate c ∈ [ChatApi.decorate (⟨"c1", "u1", "n1", "t1"⟩ : ChatApi.Chat)]) ∧
     (∀ e ∈ [ChatApi.decorate (⟨"c1", "u1", "n1", "t1"⟩ : ChatApi.Chat)],
       ∃ c ∈ c10store, c.userId = "u1" ∧ e = ChatApi.decorate c)) :=
  ⟨rfl, (c10_chat_list_isolation c10store "u1" "u2" "x" "t").2.1
    [ChatApi.decorate ⟨"c1", "u1", "n1", "t1"⟩] rfl⟩
